import Mathlib

/-!
Verification of the simplecvm repository: a two-pass assembler (sasm.c)
and a virtual-machine interpreter (svm.c) sharing the constants of svm.h.
The definitions below are a shallow embedding of the C sources: machine
integers are `Nat` with explicit `% 2^w` where the C types wrap, memory is
a total function from addresses to bytes (the C array `uint8_t
memory[MEMORY_SIZE]`; reads reduce mod 256, mirroring the uint8_t type),
and every `exit(1)` diagnostic site becomes an explicit error constructor.
-/

/-! ## Constants from svm.h -/

def MEMORY_SIZE : Nat := 32768

def HALT : Nat := 0x31
def LOAD : Nat := 0x60
def LOADI : Nat := 0x61
def STORE : Nat := 0x62
def STOREI : Nat := 0x63
def JMP : Nat := 0x64
def JMPZ : Nat := 0x65
def JMPN : Nat := 0x66
def JMPO : Nat := 0x67
def ADD : Nat := 0x68
def ADDR : Nat := 0x69
def SUB : Nat := 0x6a
def SUBR : Nat := 0x6b
def OUT : Nat := 0x6c
def OUTC : Nat := 0x6d
def OUTR : Nat := 0x6e
def OUTRC : Nat := 0x6f
def OUTI : Nat := 0x70
def OUTIC : Nat := 0x71

def A1 : Nat := 3
def A2 : Nat := 2
def R1 : Nat := 1
def R2 : Nat := 0

/-! ## Machine-integer helpers -/

/-- Reduction to a `uint16_t` value (assignment to a 16-bit C variable). -/
def u16 (n : Nat) : Nat := n % 65536

/-- Two's-complement subtraction of two `uint16_t` values
(`a -= b` on `uint16_t` in C). -/
def sub16 (a b : Nat) : Nat := u16 (a + (65536 - u16 b))

/-- Reinterpret a `uint16_t` value as `int16_t` (the `(int16_t)` casts in
the OUT/OUTR/OUTI handlers). -/
def toInt16 (v : Nat) : Int := if v < 32768 then (v : Int) else (v : Int) - 65536

/-! ## Memory (svm.c: `uint8_t memory[MEMORY_SIZE]`) -/

/-- Memory modelled as a total function; cells hold bytes. -/
abbrev Mem := Nat → Nat

/-- Read a memory cell (`memory[a]`); the `% 256` reflects the `uint8_t`
cell type. -/
def mread (m : Mem) (a : Nat) : Nat := m a % 256

/-- Write a memory cell (`memory[a] = v`); the cell retains `v` reduced to
a byte, as the `uint8_t` cell type does. -/
def mwrite (m : Mem) (a v : Nat) : Mem := fun x => if x = a then v % 256 else m x

/-- svm.c `fetchImmediate`: big-endian 16-bit read, with the source's
bounds check `address + 1 >= MEMORY_SIZE` reported as `none`. -/
def fetchImmediate (m : Mem) (address : Nat) : Option Nat :=
  if address + 1 ≥ MEMORY_SIZE then none
  else some ((mread m address <<< 8) ||| mread m (address + 1))

/-! ## CPU state (svm.c: `CPU` struct) -/

structure CPU where
  REG1 : Nat
  REG2 : Nat
  ADDR1 : Nat
  ADDR2 : Nat
  PC : Nat
  Z : Bool
  N : Bool
  O : Bool

/-- svm.c `set_flags`: Z and N from the result, O per the `'+'`/`'-'`
operation character. -/
def set_flags (c : CPU) (operand1 operand2 result : Nat) (operation : Char) : CPU :=
  let z := result == 0
  let n := (result &&& 0x8000) != 0
  let o :=
    if operation = '+' then
      ((operand1 &&& 0x8000) == (operand2 &&& 0x8000)) &&
      ((result &&& 0x8000) != (operand1 &&& 0x8000))
    else if operation = '-' then
      ((operand1 &&& 0x8000) != (operand2 &&& 0x8000)) &&
      ((result &&& 0x8000) != (operand1 &&& 0x8000))
    else
      false
  { c with Z := z, N := n, O := o }

/-- svm.c `set_flags_for_load`: Z and N from the loaded value, O untouched. -/
def set_flags_for_load (c : CPU) (value : Nat) : CPU :=
  { c with Z := value == 0, N := (value &&& 0x8000) != 0 }

/-! ## The execution step (svm.c: one iteration of `processor_cycle`) -/

/-- Output events produced by the OUT-family handlers (`printf("%d", ...)`
and `printf("%c", ...)`). -/
inductive OutEvent where
  | int (i : Int)
  | ch (c : Nat)
deriving DecidableEq

structure VMState where
  cpu : CPU
  mem : Mem
  out : List OutEvent

/-- Each `fprintf(stderr, ...); exit(1)` site of `processor_cycle` /
`fetchImmediate`, as a structured error. -/
inductive VMError where
  | memOutOfBounds (address : Nat)
  | invalidAddrRegLOADI (reg : Nat)
  | invalidDestRegLOADI (reg : Nat)
  | invalidAddrRegSTOREI (reg : Nat)
  | invalidSrcRegSTOREI (reg : Nat)
  | jumpPCOutOfBounds (pc : Nat)
  | jumpTargetInvalid (address : Nat)
  | unknownOpcode (opcode pc : Nat)
deriving DecidableEq

inductive StepResult where
  | ok (s : VMState)
  | halted (s : VMState)
  | error (e : VMError)

def StepResult.isError : StepResult → Bool
  | .error _ => true
  | _ => false

def StepResult.isOk : StepResult → Bool
  | .ok _ => true
  | _ => false

/-- One iteration of svm.c `processor_cycle`: fetch the opcode at PC
(PC is `uint16_t`, hence the `u16` on every increment), dispatch, and
perform exactly the reads, writes, checks and PC updates of the source. -/
def step (s : VMState) : StepResult :=
  let start_PC := s.cpu.PC
  let opcode := mread s.mem s.cpu.PC
  let pc1 := u16 (s.cpu.PC + 1)
  if opcode = HALT then
    .halted { s with cpu := { s.cpu with PC := pc1 } }
  else if opcode = LOAD then
    let reg := mread s.mem pc1
    let pc2 := u16 (pc1 + 1)
    match fetchImmediate s.mem pc2 with
    | none => .error (.memOutOfBounds pc2)
    | some immediate =>
      let c := { s.cpu with PC := u16 (pc2 + 2) }
      if reg = R1 then
        .ok { s with cpu := set_flags_for_load { c with REG1 := immediate } immediate }
      else if reg = R2 then
        .ok { s with cpu := set_flags_for_load { c with REG2 := immediate } immediate }
      else if reg = A1 then
        .ok { s with cpu := { c with ADDR1 := immediate } }
      else if reg = A2 then
        .ok { s with cpu := { c with ADDR2 := immediate } }
      else
        .ok { s with cpu := c }
  else if opcode = LOADI then
    let reg_byte := mread s.mem pc1
    let pc2 := u16 (pc1 + 1)
    let reg2 := (reg_byte >>> 6) &&& 0x03
    let reg1 := reg_byte &&& 0x03
    let addrE : Except VMError Nat :=
      if reg2 = A1 then .ok s.cpu.ADDR1
      else if reg2 = A2 then .ok s.cpu.ADDR2
      else if reg2 = R1 then .ok s.cpu.REG1
      else if reg2 = R2 then .ok s.cpu.REG2
      else .error (.invalidAddrRegLOADI reg2)
    match addrE with
    | .error e => .error e
    | .ok address =>
      match fetchImmediate s.mem address with
      | none => .error (.memOutOfBounds address)
      | some value =>
        let c := { s.cpu with PC := pc2 }
        if reg1 = R1 then
          .ok { s with cpu := set_flags_for_load { c with REG1 := value } value }
        else if reg1 = R2 then
          .ok { s with cpu := set_flags_for_load { c with REG2 := value } value }
        else if reg1 = A1 then
          .ok { s with cpu := { c with ADDR1 := value } }
        else if reg1 = A2 then
          .ok { s with cpu := { c with ADDR2 := value } }
        else
          .error (.invalidDestRegLOADI reg1)
  else if opcode = STORE then
    let reg := mread s.mem pc1
    let pc2 := u16 (pc1 + 1)
    match fetchImmediate s.mem pc2 with
    | none => .error (.memOutOfBounds pc2)
    | some immediate =>
      let value := if reg = R1 then s.cpu.REG1 else s.cpu.REG2
      let m1 := mwrite s.mem immediate ((value >>> 8) &&& 0xFF)
      let m2 := mwrite m1 (immediate + 1) (value &&& 0xFF)
      .ok { s with cpu := { s.cpu with PC := u16 (pc2 + 2) }, mem := m2 }
  else if opcode = STOREI then
    let reg_byte := mread s.mem pc1
    let pc2 := u16 (pc1 + 1)
    let reg2 := (reg_byte >>> 6) &&& 0x03
    let reg1 := reg_byte &&& 0x03
    let addrE : Except VMError Nat :=
      if reg2 = A1 then .ok s.cpu.ADDR1
      else if reg2 = A2 then .ok s.cpu.ADDR2
      else if reg2 = R1 then .ok s.cpu.REG1
      else if reg2 = R2 then .ok s.cpu.REG2
      else .error (.invalidAddrRegSTOREI reg2)
    match addrE with
    | .error e => .error e
    | .ok address =>
      let valueE : Except VMError Nat :=
        if reg1 = R1 then .ok s.cpu.REG1
        else if reg1 = R2 then .ok s.cpu.REG2
        else if reg1 = A1 then .ok s.cpu.ADDR1
        else if reg1 = A2 then .ok s.cpu.ADDR2
        else .error (.invalidSrcRegSTOREI reg1)
      match valueE with
      | .error e => .error e
      | .ok value =>
        let m1 := mwrite s.mem address ((value >>> 8) &&& 0xFF)
        let m2 := mwrite m1 (address + 1) (value &&& 0xFF)
        .ok { s with cpu := { s.cpu with PC := pc2 }, mem := m2 }
  else if opcode = ADD then
    let reg := mread s.mem pc1
    let pc2 := u16 (pc1 + 1)
    match fetchImmediate s.mem pc2 with
    | none => .error (.memOutOfBounds pc2)
    | some immediate =>
      let old_value := if reg = R1 then s.cpu.REG1 else s.cpu.REG2
      let c := { s.cpu with PC := u16 (pc2 + 2) }
      if reg = R1 then
        let c := { c with REG1 := u16 (c.REG1 + immediate) }
        .ok { s with cpu := set_flags c old_value immediate c.REG1 '+' }
      else if reg = R2 then
        let c := { c with REG2 := u16 (c.REG2 + immediate) }
        .ok { s with cpu := set_flags c old_value immediate c.REG2 '+' }
      else
        .ok { s with cpu := c }
  else if opcode = ADDR then
    let reg_byte := mread s.mem pc1
    let pc2 := u16 (pc1 + 1)
    let reg2 := (reg_byte >>> 6) &&& 0x03
    let reg1 := reg_byte &&& 0x03
    let src_value := if reg2 = R1 then s.cpu.REG1 else s.cpu.REG2
    let old_value := if reg1 = R1 then s.cpu.REG1 else s.cpu.REG2
    let result := u16 (old_value + src_value)
    let c := { s.cpu with PC := pc2 }
    let c := if reg1 = R1 then { c with REG1 := result } else { c with REG2 := result }
    .ok { s with cpu := set_flags c old_value src_value result '+' }
  else if opcode = SUB then
    let reg := mread s.mem pc1
    let pc2 := u16 (pc1 + 1)
    match fetchImmediate s.mem pc2 with
    | none => .error (.memOutOfBounds pc2)
    | some immediate =>
      let old_value := if reg = R1 then s.cpu.REG1 else s.cpu.REG2
      let c := { s.cpu with PC := u16 (pc2 + 2) }
      if reg = R1 then
        let c := { c with REG1 := sub16 c.REG1 immediate }
        .ok { s with cpu := set_flags c old_value immediate c.REG1 '-' }
      else if reg = R2 then
        let c := { c with REG2 := sub16 c.REG2 immediate }
        .ok { s with cpu := set_flags c old_value immediate c.REG2 '-' }
      else
        .ok { s with cpu := c }
  else if opcode = SUBR then
    let reg_byte := mread s.mem pc1
    let pc2 := u16 (pc1 + 1)
    let reg2 := (reg_byte >>> 6) &&& 0x03
    let reg1 := reg_byte &&& 0x03
    let src_value := if reg2 = R1 then s.cpu.REG1 else s.cpu.REG2
    let old_value := if reg1 = R1 then s.cpu.REG1 else s.cpu.REG2
    let result := sub16 old_value src_value
    let c := { s.cpu with PC := pc2 }
    let c := if reg1 = R1 then { c with REG1 := result } else { c with REG2 := result }
    .ok { s with cpu := set_flags c old_value src_value result '-' }
  else if opcode = JMP ∨ opcode = JMPZ ∨ opcode = JMPN ∨ opcode = JMPO then
    -- the source reads and discards one unused byte before the target
    let pc2 := u16 (pc1 + 1)
    if pc2 ≥ MEMORY_SIZE then .error (.jumpPCOutOfBounds pc2)
    else
      match fetchImmediate s.mem pc2 with
      | none => .error (.memOutOfBounds pc2)
      | some immediate =>
        let pc3 := u16 (pc2 + 2)
        let jump :=
          if opcode = JMP then true
          else if opcode = JMPZ ∧ s.cpu.Z then true
          else if opcode = JMPN ∧ s.cpu.N then true
          else if opcode = JMPO ∧ s.cpu.O then true
          else false
        if jump then
          if immediate < MEMORY_SIZE then
            .ok { s with cpu := { s.cpu with PC := immediate } }
          else
            .error (.jumpTargetInvalid immediate)
        else
          .ok { s with cpu := { s.cpu with PC := pc3 } }
  else if opcode = OUT then
    let pc2 := u16 (pc1 + 1)
    match fetchImmediate s.mem pc2 with
    | none => .error (.memOutOfBounds pc2)
    | some immediate =>
      .ok { s with cpu := { s.cpu with PC := u16 (pc2 + 2) },
                   out := s.out ++ [.int (toInt16 immediate)] }
  else if opcode = OUTC then
    let pc2 := u16 (pc1 + 1)
    match fetchImmediate s.mem pc2 with
    | none => .error (.memOutOfBounds pc2)
    | some immediate =>
      .ok { s with cpu := { s.cpu with PC := u16 (pc2 + 2) },
                   out := s.out ++ [.ch (immediate &&& 0xFF)] }
  else if opcode = OUTR then
    let reg := mread s.mem pc1
    let pc2 := u16 (pc1 + 1)
    let o := if reg = R1 then [OutEvent.int (toInt16 s.cpu.REG1)]
             else if reg = R2 then [OutEvent.int (toInt16 s.cpu.REG2)]
             else []
    .ok { s with cpu := { s.cpu with PC := pc2 }, out := s.out ++ o }
  else if opcode = OUTRC then
    let reg := mread s.mem pc1
    let pc2 := u16 (pc1 + 1)
    let o := if reg = R1 then [OutEvent.ch (s.cpu.REG1 &&& 0xFF)]
             else if reg = R2 then [OutEvent.ch (s.cpu.REG2 &&& 0xFF)]
             else []
    .ok { s with cpu := { s.cpu with PC := pc2 }, out := s.out ++ o }
  else if opcode = OUTI then
    let reg := mread s.mem pc1
    let pc2 := u16 (pc1 + 1)
    let address := if reg = A1 then s.cpu.ADDR1 else s.cpu.ADDR2
    match fetchImmediate s.mem address with
    | none => .error (.memOutOfBounds address)
    | some value =>
      .ok { s with cpu := { s.cpu with PC := pc2 },
                   out := s.out ++ [.int (toInt16 value)] }
  else if opcode = OUTIC then
    let reg := mread s.mem pc1
    let pc2 := u16 (pc1 + 1)
    let address := if reg = A1 then s.cpu.ADDR1 else s.cpu.ADDR2
    let value := mread s.mem address
    .ok { s with cpu := { s.cpu with PC := pc2 }, out := s.out ++ [.ch value] }
  else
    .error (.unknownOpcode opcode start_PC)

/-! ## Loader and initial state (svm.c: `load_program`, `initialize_cpu`) -/

/-- The loader loop body: store bytes while `address < MEMORY_SIZE`. -/
def loadInto (m : Mem) (address : Nat) : List Nat → Mem
  | [] => m
  | b :: rest =>
    if address < MEMORY_SIZE then loadInto (mwrite m address b) (address + 1) rest
    else m

/-- svm.c `load_program` applied to zeroed memory (main calls
`memset(memory, 0, ...)` first): copy the input stream to address 0,
stopping at the capacity. -/
def load_program (input : List Nat) : Mem := loadInto (fun _ => 0) 0 input

/-- svm.c `initialize_cpu`: everything zero. -/
def initial_cpu : CPU :=
  { REG1 := 0, REG2 := 0, ADDR1 := 0, ADDR2 := 0, PC := 0, Z := false, N := false, O := false }

/-- The interpreter's state after `load_program` and `initialize_cpu`. -/
def initial_state (input : List Nat) : VMState :=
  { cpu := initial_cpu, mem := load_program input, out := [] }

/-- Helper for stating concrete executions: the state after one step
(unchanged on error). -/
def afterStep (s : VMState) : VMState :=
  match step s with
  | .ok s' => s'
  | .halted s' => s'
  | .error _ => s

/-! ## Assembler (sasm.c) -/

/-- A source line, as the character list the C code manipulates. -/
abbrev Line := List Char

/-- Convenience for writing concrete lines and tokens. -/
def chars (s : String) : List Char := s.toList

/-- C `isspace` (the whitespace class used by `trim_whitespace` and the
`sscanf` conversions). -/
def isspace (c : Char) : Bool :=
  c = ' ' || c = '\t' || c = '\n' || c = '\x0b' || c = '\x0c' || c = '\r'

/-- sasm.c `strip_comments`: truncate the line at the first `#`. -/
def strip_comments (line : Line) : Line := line.takeWhile (fun c => c ≠ '#')

/-- sasm.c `trim_whitespace`: drop leading and trailing whitespace. -/
def trim_whitespace (str : Line) : Line :=
  ((str.dropWhile isspace).reverse.dropWhile isspace).reverse

/-- The `%s` conversion of `sscanf`: skip whitespace, read a maximal
non-whitespace token; fails if nothing remains. -/
def scanToken (l : Line) : Option (Line × Line) :=
  let l1 := l.dropWhile isspace
  match l1.takeWhile (fun c => !isspace c) with
  | [] => none
  | tok => some (tok, l1.drop tok.length)

/-- The `sscanf(line, "%s %[^\n]", label, rest)` pattern of `first_pass`:
succeeds (returns 2 in C) only when a token is followed by whitespace and
further non-newline content. -/
def sscanf_label (l : Line) : Option (Line × Line) :=
  match scanToken l with
  | none => none
  | some (tok, rest) =>
    let rest1 := rest.dropWhile isspace
    match rest1.takeWhile (fun c => c ≠ '\n') with
    | [] => none
    | r => some (tok, r)

/-- The `sscanf(line, " %s %[^,], %s", ...)` pattern of `second_pass`
(returns 3 in C): mnemonic, everything before the comma, then a token
after the comma. -/
def parse3 (l : Line) : Option (Line × Line × Line) :=
  match scanToken l with
  | none => none
  | some (inst, r1) =>
    let r2 := r1.dropWhile isspace
    match r2.span (fun c => c ≠ ',') with
    | ([], _) => none
    | (op1, r3) =>
      match r3 with
      | ',' :: r4 =>
        match scanToken r4 with
        | some (op2, _) => some (inst, op1, op2)
        | none => none
      | _ => none

/-- The `sscanf(line, " %s %s", ...)` pattern (returns 2 in C). -/
def parse2 (l : Line) : Option (Line × Line) :=
  match scanToken l with
  | none => none
  | some (inst, r1) =>
    match scanToken r1 with
    | none => none
    | some (op1, _) => some (inst, op1)

/-- The `sscanf(line, " %s", ...)` pattern (returns 1 in C). -/
def parse1 (l : Line) : Option Line := (scanToken l).map Prod.fst

/-- sasm.c `get_register_code` (0xFF on an unknown register name). -/
def get_register_code (reg : Line) : Nat :=
  if reg = chars "R1" then 1
  else if reg = chars "R2" then 0
  else if reg = chars "A1" then 3
  else if reg = chars "A2" then 2
  else 0xFF

/-- C `atoi` digit loop: accumulate decimal digits, stop at the first
non-digit. -/
def atoiDigits : List Char → Nat → Nat
  | c :: rest, acc =>
    if c.isDigit then atoiDigits rest (acc * 10 + (c.toNat - '0'.toNat)) else acc
  | [], acc => acc

/-- C `atoi`: skip whitespace, optional sign, then digits; 0 when no
digits are present. -/
def atoi (l : List Char) : Int :=
  match l.dropWhile isspace with
  | '-' :: rest => - (atoiDigits rest 0 : Int)
  | '+' :: rest => (atoiDigits rest 0 : Int)
  | rest => (atoiDigits rest 0 : Int)

/-- The `(uint16_t)atoi(...)` cast of sasm.c. -/
def u16ofInt (i : Int) : Nat := (i % 65536).toNat

/-- The symbol table: label names with their `uint16_t` addresses, in
insertion order (the C array `symbol_table` with `label_count`). -/
abbrev Table := List (Line × Nat)

/-- Every `fprintf(stderr, ...); exit(1)` site of sasm.c, as a structured
error. -/
inductive AsmErr where
  | symbolTableOverflow
  | unknownInstructionP1 (instruction : Line)
  | invalidRegister (operand : Line)
  | invalidRegisterPair (instruction : Line)
  | unknownTwoOperand (instruction : Line)
  | unknownOneOperand (instruction : Line)
  | unknownInstruction (instruction : Line)
  | undefinedLabel (operand : Line)
  | invalidFormat
deriving DecidableEq

/-- sasm.c `add_label`: append unconditionally, failing only when the
table is full (`label_count >= MAX_LABELS`, MAX_LABELS = 256). -/
def add_label (table : Table) (label : Line) (address : Nat) : Except AsmErr Table :=
  if table.length ≥ 256 then .error .symbolTableOverflow
  else .ok (table ++ [(label, address)])

/-- sasm.c `find_label`: linear scan from index 0, first match wins. -/
def find_label (table : Table) (label : Line) : Option Nat :=
  match table with
  | [] => none
  | (l, a) :: rest => if l = label then some a else find_label rest label

/-- The reserved-mnemonic test of `first_pass` (the chain of 20 `strcmp`
calls deciding whether the first token is a label). -/
def is_mnemonic (t : Line) : Bool :=
  t = chars "LOAD" || t = chars "LOADI" || t = chars "STORE" || t = chars "STOREI" ||
  t = chars "JMP" || t = chars "JMPZ" || t = chars "JMPN" || t = chars "JMPO" ||
  t = chars "ADD" || t = chars "ADDR" || t = chars "SUB" || t = chars "SUBR" ||
  t = chars "OUT" || t = chars "OUTC" || t = chars "OUTR" || t = chars "OUTRC" ||
  t = chars "OUTI" || t = chars "OUTIC" || t = chars "HALT" || t = chars "DATA"

/-- The instruction-length table of `first_pass` (the location-counter
increment chosen by the mnemonic; `none` is the "Unknown instruction in
first pass" abort). -/
def instr_size (instruction : Line) : Option Nat :=
  if instruction = chars "HALT" then some 1
  else if instruction = chars "LOAD" || instruction = chars "STORE" ||
          instruction = chars "JMP" || instruction = chars "JMPZ" ||
          instruction = chars "JMPN" || instruction = chars "JMPO" ||
          instruction = chars "ADD" || instruction = chars "SUB" ||
          instruction = chars "OUT" || instruction = chars "OUTC" then some 4
  else if instruction = chars "LOADI" || instruction = chars "STOREI" ||
          instruction = chars "ADDR" || instruction = chars "SUBR" ||
          instruction = chars "OUTR" || instruction = chars "OUTRC" ||
          instruction = chars "OUTI" || instruction = chars "OUTIC" then some 2
  else if instruction = chars "DATA" then some 2
  else none

/-- One loop iteration of sasm.c `first_pass` on one line: preprocess,
possibly register a label (first token not a reserved mnemonic, and only
when followed by further content), advance the `uint16_t` location
counter by the mnemonic's length, and yield the line as the second pass
will see it (label stripped only in the two-item branch, as in the C,
which rewrites `lines[i]` only there). -/
def first_pass_line (table : Table) (lc : Nat) (line : Line) :
    Except AsmErr (Table × Nat × Line) :=
  let line_copy := trim_whitespace (strip_comments line)
  if line_copy = [] then .ok (table, lc, line)
  else
    match sscanf_label line_copy with
    | some (label, rest_of_line) =>
      let tableE : Except AsmErr (Table × Line) :=
        if is_mnemonic label = false then
          match add_label table label lc with
          | .error e => .error e
          | .ok t2 => .ok (t2, rest_of_line)
        else .ok (table, line_copy)
      match tableE with
      | .error e => .error e
      | .ok (t2, line_copy2) =>
        match parse1 line_copy2 with
        | some instruction =>
          match instr_size instruction with
          | some n => .ok (t2, u16 (lc + n), line_copy2)
          | none => .error (.unknownInstructionP1 instruction)
        | none => .error .invalidFormat
    | none =>
      match parse1 line_copy with
      | some instruction =>
        match instr_size instruction with
        | some n => .ok (table, u16 (lc + n), line)
        | none => .error (.unknownInstructionP1 instruction)
      | none => .error .invalidFormat

/-- sasm.c `first_pass` over all lines: thread the table and location
counter, abort on the first error. -/
def first_pass_aux (table : Table) (lc : Nat) : List Line → Except AsmErr (Table × List Line)
  | [] => .ok (table, [])
  | l :: rest =>
    match first_pass_line table lc l with
    | .error e => .error e
    | .ok (t2, lc2, l2) =>
      match first_pass_aux t2 lc2 rest with
      | .error e => .error e
      | .ok (tf, rest2) => .ok (tf, l2 :: rest2)

def first_pass (lines : List Line) : Except AsmErr (Table × List Line) :=
  first_pass_aux [] 0 lines

/-- One loop iteration of sasm.c `second_pass` on one line: preprocess,
classify by the three `sscanf` patterns, and emit the instruction's bytes
(each `putchar`/`write16` call in order), or the corresponding error. -/
def encode_line (table : Table) (line : Line) : Except AsmErr (List Nat) :=
  let line_copy := trim_whitespace (strip_comments line)
  if line_copy = [] then .ok []
  else
    match parse3 line_copy with
    | some (instruction, operand1, operand2) =>
      if instruction = chars "LOAD" || instruction = chars "ADD" ||
         instruction = chars "SUB" || instruction = chars "STORE" then
        let opcode :=
          if instruction = chars "LOAD" then LOAD
          else if instruction = chars "ADD" then ADD
          else if instruction = chars "SUB" then SUB
          else STORE
        let reg_code := get_register_code operand1
        if reg_code = 0xFF then .error (.invalidRegister operand1)
        else
          let immediate :=
            match find_label table operand2 with
            | some a => a
            | none => u16ofInt (atoi operand2)
          .ok [opcode, reg_code, (immediate >>> 8) &&& 0xFF, immediate &&& 0xFF]
      else if instruction = chars "LOADI" || instruction = chars "STOREI" ||
              instruction = chars "ADDR" || instruction = chars "SUBR" then
        let opcode :=
          if instruction = chars "LOADI" then LOADI
          else if instruction = chars "STOREI" then STOREI
          else if instruction = chars "ADDR" then ADDR
          else SUBR
        let reg_code1 := get_register_code operand1
        let reg_code2 := get_register_code operand2
        if reg_code1 = 0xFF ∨ reg_code2 = 0xFF then .error (.invalidRegisterPair instruction)
        else .ok [opcode, (reg_code2 <<< 6) ||| (reg_code1 &&& 0x03)]
      else .error (.unknownTwoOperand instruction)
    | none =>
      match parse2 line_copy with
      | some (instruction, operand1) =>
        if instruction = chars "JMP" || instruction = chars "JMPZ" ||
           instruction = chars "JMPN" || instruction = chars "JMPO" ||
           instruction = chars "DATA" || instruction = chars "OUTR" ||
           instruction = chars "OUTRC" || instruction = chars "OUTI" ||
           instruction = chars "OUTIC" || instruction = chars "OUT" ||
           instruction = chars "OUTC" then
          if instruction = chars "OUTR" || instruction = chars "OUTRC" ||
             instruction = chars "OUTI" || instruction = chars "OUTIC" then
            let opcode :=
              if instruction = chars "OUTR" then OUTR
              else if instruction = chars "OUTRC" then OUTRC
              else if instruction = chars "OUTI" then OUTI
              else OUTIC
            let reg_code := get_register_code operand1
            if reg_code = 0xFF then .error (.invalidRegister operand1)
            else .ok [opcode, reg_code]
          else if instruction = chars "OUT" || instruction = chars "OUTC" then
            let opcode := if instruction = chars "OUT" then OUT else OUTC
            let immediate :=
              match find_label table operand1 with
              | some a => a
              | none => u16ofInt (atoi operand1)
            .ok [opcode, 0, (immediate >>> 8) &&& 0xFF, immediate &&& 0xFF]
          else if instruction = chars "DATA" then
            let value :=
              match find_label table operand1 with
              | some a => a
              | none => u16ofInt (atoi operand1)
            .ok [(value >>> 8) &&& 0xFF, value &&& 0xFF]
          else
            let opcode :=
              if instruction = chars "JMP" then JMP
              else if instruction = chars "JMPZ" then JMPZ
              else if instruction = chars "JMPN" then JMPN
              else if instruction = chars "JMPO" then JMPO
              else 0
            match find_label table operand1 with
            | none => .error (.undefinedLabel operand1)
            | some address =>
              .ok [opcode, 0, (address >>> 8) &&& 0xFF, address &&& 0xFF]
        else .error (.unknownOneOperand instruction)
      | none =>
        match parse1 line_copy with
        | some instruction =>
          if instruction = chars "HALT" then .ok [HALT]
          else .error (.unknownInstruction instruction)
        | none => .error .invalidFormat

/-- sasm.c `second_pass`: emit line by line; on an error the bytes already
written to stdout by earlier lines remain (the pair keeps them). -/
def second_pass (table : Table) : List Line → List Nat × Option AsmErr
  | [] => ([], none)
  | l :: rest =>
    match encode_line table l with
    | .error e => ([], some e)
    | .ok bs =>
      match second_pass table rest with
      | (outBytes, err) => (bs ++ outBytes, err)

/-- sasm.c `main`: first pass (no output), then second pass. The first
component is everything written to stdout; the second is the abort, if
any. -/
def assemble (lines : List Line) : List Nat × Option AsmErr :=
  match first_pass lines with
  | .error e => ([], some e)
  | .ok (table, lines2) => second_pass table lines2

/-- A textual operand/label token as the sscanf patterns can produce it:
nonempty, no whitespace, no comma, no comment marker. -/
def cleanTok (t : Line) : Prop :=
  t ≠ [] ∧ ∀ c ∈ t, isspace c = false ∧ c ≠ ',' ∧ c ≠ '#'

instance (t : Line) : Decidable (cleanTok t) := by
  unfold cleanTok
  infer_instance

/-- The mnemonic `first_pass` sizes a line by: the first token after the
optional label strip (`sscanf(line_copy, " %s", instruction)`). -/
def line_mnemonic (line : Line) : Option Line :=
  let l := trim_whitespace (strip_comments line)
  if l = [] then none
  else
    match sscanf_label l with
    | some (label, rest) => if is_mnemonic label then parse1 l else parse1 rest
    | none => parse1 l

/-! ## List-scanning helper lemmas -/

theorem takeWhile_all {p : Char → Bool} {l : Line} (h : ∀ c ∈ l, p c = true) :
    l.takeWhile p = l := by
  induction l with
  | nil => rfl
  | cons a t ih =>
    rw [List.takeWhile_cons, if_pos (h a (List.mem_cons_self a t))]
    rw [ih (fun c hc => h c (List.mem_cons_of_mem a hc))]

theorem dropWhile_all_false {p : Char → Bool} {l : Line} (h : ∀ c ∈ l, p c = false) :
    l.dropWhile p = l := by
  cases l with
  | nil => rfl
  | cons a t =>
    rw [List.dropWhile_cons, if_neg]
    rw [h a (List.mem_cons_self a t)]
    exact Bool.false_ne_true

theorem dropWhile_append_all {p : Char → Bool} {l1 l2 : Line} (hne : l1 ≠ [])
    (h : ∀ c ∈ l1, p c = false) :
    (l1 ++ l2).dropWhile p = l1 ++ l2 := by
  cases l1 with
  | nil => exact absurd rfl hne
  | cons a t =>
    rw [List.cons_append, List.dropWhile_cons, if_neg]
    rw [h a (List.mem_cons_self a t)]
    exact Bool.false_ne_true

theorem takeWhile_append_stop {p : Char → Bool} {l1 : Line} {a : Char} {l2 : Line}
    (h1 : ∀ c ∈ l1, p c = true) (h2 : p a = false) :
    (l1 ++ a :: l2).takeWhile p = l1 := by
  induction l1 with
  | nil => simp [List.takeWhile_cons, h2]
  | cons b t ih =>
    rw [List.cons_append, List.takeWhile_cons, if_pos (h1 b (List.mem_cons_self b t))]
    rw [ih (fun c hc => h1 c (List.mem_cons_of_mem b hc))]

theorem dropWhile_append_stop {p : Char → Bool} {l1 : Line} {a : Char} {l2 : Line}
    (h1 : ∀ c ∈ l1, p c = true) (h2 : p a = false) :
    (l1 ++ a :: l2).dropWhile p = a :: l2 := by
  induction l1 with
  | nil => simp [List.dropWhile_cons, h2]
  | cons b t ih =>
    rw [List.cons_append, List.dropWhile_cons, if_pos (h1 b (List.mem_cons_self b t))]
    rw [ih (fun c hc => h1 c (List.mem_cons_of_mem b hc))]

/-! ## Loader (claim C9) -/

theorem loadInto_apply (input : List Nat) (m : Mem) (a i : Nat) :
    loadInto m a input i =
      if a ≤ i ∧ i < a + input.length ∧ i < MEMORY_SIZE then input.getD (i - a) 0 % 256
      else m i := by
  induction input generalizing m a with
  | nil =>
    simp only [loadInto, List.length_nil, Nat.add_zero]
    rw [if_neg (by omega)]
  | cons b rest ih =>
    simp only [loadInto, List.length_cons]
    by_cases ha : a < MEMORY_SIZE
    · rw [if_pos ha, ih]
      by_cases hia : i = a
      · subst hia
        rw [if_neg (by omega), if_pos (by omega)]
        simp [mwrite]
      · by_cases hcond : a + 1 ≤ i ∧ i < a + 1 + rest.length ∧ i < MEMORY_SIZE
        · rw [if_pos hcond, if_pos (by omega)]
          have hsub : i - a = (i - (a + 1)) + 1 := by omega
          rw [hsub, List.getD_cons_succ]
        · rw [if_neg hcond, if_neg (by omega)]
          simp [mwrite, hia]
    · rw [if_neg ha, if_neg (by omega)]

/-- C9: the loader copies the input stream into memory starting at
address 0 and stops exactly at the capacity: every position below
`min length 32768` holds the corresponding stream byte, so a 32,768-byte
stream is loaded fully, while positions at or beyond 32,768 keep their
zero value — a longer stream is silently truncated there (the loader has
no error outcome at all). -/
theorem load_program_copies_and_truncates (input : List Nat) (i : Nat) :
    load_program input i = if i < MEMORY_SIZE then input.getD i 0 % 256 else 0 := by
  unfold load_program
  rw [loadInto_apply]
  by_cases hms : i < MEMORY_SIZE
  · by_cases hlen : i < input.length
    · rw [if_pos (by omega), if_pos hms]
      simp
    · rw [if_neg (by omega), if_pos hms]
      rw [List.getD_eq_default _ _ (by omega)]
  · rw [if_neg (by omega), if_neg hms]

/-! ## Symbol table (claim C3) -/

/-- C3 counterexample: the two-line program `dup HALT` / `dup HALT`
defines the label `dup` twice, yet `first_pass` accepts it and the
resulting symbol table holds both entries — the stored names are not
pairwise distinct. -/
theorem duplicate_label_accepted :
    first_pass [chars "dup HALT", chars "dup HALT"] =
      .ok ([(chars "dup", 0), (chars "dup", 1)], [chars "HALT", chars "HALT"]) ∧
    ¬ List.Pairwise (fun p q : Line × Nat => p.1 ≠ q.1)
        [(chars "dup", 0), (chars "dup", 1)] := by
  constructor
  · rfl
  · decide

/-- C3 amended: `add_label` performs no duplicate check — below capacity
it appends unconditionally, so a twice-defined label is stored twice; a
lookup resolves to the earliest entry. -/
theorem add_label_no_duplicate_check :
    (∀ (table : Table) (label : Line) (address : Nat),
        table.length < 256 →
        add_label table label address = .ok (table ++ [(label, address)])) ∧
    (∀ (t1 t2 : Table) (label : Line) (address : Nat),
        (∀ p ∈ t1, p.1 ≠ label) →
        find_label (t1 ++ (label, address) :: t2) label = some address) := by
  constructor
  · intro table label address h
    unfold add_label
    rw [if_neg (by omega)]
  · intro t1 t2 label address h
    induction t1 with
    | nil => simp [find_label]
    | cons p rest ih =>
      obtain ⟨l, a⟩ := p
      rw [List.cons_append]
      show (if l = label then some a else find_label (rest ++ (label, address) :: t2) label) = _
      rw [if_neg (h (l, a) (List.mem_cons_self _ _))]
      exact ih (fun q hq => h q (List.mem_cons_of_mem _ hq))

theorem add_label_no_duplicate_check_witness :
    add_label [(chars "dup", 0)] (chars "dup") 1 =
      .ok [(chars "dup", 0), (chars "dup", 1)] ∧
    find_label [(chars "x", 5), (chars "dup", 7), (chars "dup", 9)] (chars "dup") = some 7 :=
  ⟨add_label_no_duplicate_check.1 [(chars "dup", 0)] (chars "dup") 1 (by decide),
   add_label_no_duplicate_check.2 [(chars "x", 5)] [(chars "dup", 9)] (chars "dup") 7 (by decide)⟩

/-! ## ADD/SUB with an unhandled register byte (claim C10) -/

/-- C10: executing ADD or SUB whose register operand byte is neither
R1 (1) nor R2 (0) raises no error and is a 4-byte no-op: PC advances by 4
and registers, flags, memory and output are unchanged. -/
theorem add_sub_invalid_reg_noop (s : VMState) (op reg : Nat)
    (hpc : s.cpu.PC + 3 < MEMORY_SIZE)
    (hop : mread s.mem s.cpu.PC = op) (hor : op = ADD ∨ op = SUB)
    (hreg : mread s.mem (s.cpu.PC + 1) = reg)
    (h1 : reg ≠ R1) (h0 : reg ≠ R2) :
    step s = .ok { s with cpu := { s.cpu with PC := s.cpu.PC + 4 } } := by
  have hpc' : s.cpu.PC + 3 < 32768 := hpc
  have e1 : u16 (s.cpu.PC + 1) = s.cpu.PC + 1 := by unfold u16; omega
  have e2 : u16 (s.cpu.PC + 1 + 1) = s.cpu.PC + 2 := by unfold u16; omega
  have e3 : u16 (s.cpu.PC + 2 + 2) = s.cpu.PC + 4 := by unfold u16; omega
  have h1' : ¬ (reg = 1) := h1
  have h0' : ¬ (reg = 0) := h0
  have hfetch : fetchImmediate s.mem (s.cpu.PC + 2) =
      some ((mread s.mem (s.cpu.PC + 2) <<< 8) ||| mread s.mem (s.cpu.PC + 2 + 1)) := by
    unfold fetchImmediate
    rw [if_neg (by unfold MEMORY_SIZE; omega)]
  rcases hor with rfl | rfl <;>
    simp [step, hop, e1, e2, e3, hreg, hfetch, h1', h0',
      HALT, LOAD, LOADI, STORE, STOREI, JMP, JMPZ, JMPN, JMPO,
      ADD, ADDR, SUB, SUBR, OUT, OUTC, OUTR, OUTRC, OUTI, OUTIC, R1, R2, A1, A2]

theorem add_sub_invalid_reg_noop_witness :
    step (initial_state [0x68, 2, 0, 7]) =
      .ok { initial_state [0x68, 2, 0, 7] with
            cpu := { (initial_state [0x68, 2, 0, 7]).cpu with
                     PC := (initial_state [0x68, 2, 0, 7]).cpu.PC + 4 } } :=
  add_sub_invalid_reg_noop (initial_state [0x68, 2, 0, 7]) 0x68 2
    (by decide) (by decide) (Or.inl rfl) (by decide) (by decide) (by decide)

/-! ## Memory-bounds checking (claim C1) -/

/-- C1 counterexample: the program `LOAD R1, 0x1234; STORE R1, 32767`
performs a 16-bit STORE write straddling the last valid address
(cells 32767 and 32768). Both steps succeed — no abort — and the
out-of-range cell 32768 silently receives the low byte 0x34. -/
theorem store_straddling_write_not_aborted :
    (step (initial_state [0x60, 1, 0x12, 0x34, 0x62, 1, 0x7F, 0xFF])).isError = false ∧
    (step (afterStep (initial_state [0x60, 1, 0x12, 0x34, 0x62, 1, 0x7F, 0xFF]))).isError
      = false ∧
    (afterStep (afterStep (initial_state [0x60, 1, 0x12, 0x34, 0x62, 1, 0x7F, 0xFF]))).mem 32767
      = 0x12 ∧
    (afterStep (afterStep (initial_state [0x60, 1, 0x12, 0x34, 0x62, 1, 0x7F, 0xFF]))).mem 32768
      = 0x34 := by
  refine ⟨by decide, by decide, by decide, by decide⟩

/-- C1 amended: 16-bit reads that go through `fetchImmediate` abort
exactly when they straddle or pass the last valid address, but the 16-bit
memory writes of STORE and STOREI are not bounds-checked at all: a STORE
whose operand bytes are in bounds succeeds for every target address, and
a STOREI never aborts, silently writing out-of-range storage. -/
theorem fetch_checked_writes_unchecked :
    (∀ (m : Mem) (address : Nat),
        fetchImmediate m address = none ↔ MEMORY_SIZE ≤ address + 1) ∧
    (∀ (s : VMState), mread s.mem s.cpu.PC = STORE →
        s.cpu.PC + 3 < MEMORY_SIZE → (step s).isError = false) ∧
    (∀ (s : VMState), mread s.mem s.cpu.PC = STOREI → (step s).isError = false) := by
  refine ⟨?_, ?_, ?_⟩
  · intro m address
    unfold fetchImmediate
    by_cases h : MEMORY_SIZE ≤ address + 1
    · simp [h]
    · simp [h]
  · intro s hop hpc
    have hpc' : s.cpu.PC + 3 < 32768 := hpc
    have e1 : u16 (s.cpu.PC + 1) = s.cpu.PC + 1 := by unfold u16; omega
    have e2 : u16 (s.cpu.PC + 1 + 1) = s.cpu.PC + 2 := by unfold u16; omega
    have hfetch : fetchImmediate s.mem (s.cpu.PC + 2) =
        some ((mread s.mem (s.cpu.PC + 2) <<< 8) ||| mread s.mem (s.cpu.PC + 2 + 1)) := by
      unfold fetchImmediate
      rw [if_neg (by unfold MEMORY_SIZE; omega)]
    simp [step, hop, e1, e2, hfetch,
      HALT, LOAD, LOADI, STORE, R1, StepResult.isError]
  · intro s hop
    have hr2 : (mread s.mem (u16 (s.cpu.PC + 1)) >>> 6) &&& 0x03 ≤ 3 := Nat.and_le_right
    have hr1 : mread s.mem (u16 (s.cpu.PC + 1)) &&& 0x03 ≤ 3 := Nat.and_le_right
    simp only [step, hop,
      HALT, LOAD, LOADI, STORE, STOREI, R1, R2, A1, A2]
    norm_num
    interval_cases h2 : (mread s.mem (u16 (s.cpu.PC + 1)) >>> 6) &&& 0x03 <;>
      interval_cases h1 : mread s.mem (u16 (s.cpu.PC + 1)) &&& 0x03 <;>
        simp [StepResult.isError]

theorem fetch_checked_writes_unchecked_witness :
    fetchImmediate (fun _ => 0) 32767 = none ∧
    (step (initial_state [0x62, 1, 0x7F, 0xFF])).isError = false ∧
    (step { cpu := initial_cpu, mem := fun _ => 0x63, out := [] }).isError = false :=
  ⟨(fetch_checked_writes_unchecked.1 (fun _ => 0) 32767).mpr (by decide),
   fetch_checked_writes_unchecked.2.1 (initial_state [0x62, 1, 0x7F, 0xFF])
     (by decide) (by decide),
   fetch_checked_writes_unchecked.2.2 { cpu := initial_cpu, mem := fun _ => 0x63, out := [] }
     (by decide)⟩

/-! ## Packed register codes (claim C2) -/

/-- C2 counterexample: `LOAD R2, 5` followed by an ADDR instruction whose
packed byte 0x02 encodes code 2 (A2, an address register — not a valid
data-register operand for register arithmetic) as its destination. The
interpreter does not abort: the step succeeds and silently treats the
code as R2, doubling REG2 to 10 while ADDR2 stays 0. -/
theorem addr_invalid_code_executes_silently :
    (step (afterStep (initial_state [0x60, 0, 0x00, 0x05, 0x69, 0x02]))).isError = false ∧
    (afterStep (afterStep (initial_state [0x60, 0, 0x00, 0x05, 0x69, 0x02]))).cpu.REG2 = 10 ∧
    (afterStep (afterStep (initial_state [0x60, 0, 0x00, 0x05, 0x69, 0x02]))).cpu.ADDR2 = 0 := by
  refine ⟨by decide, by decide, by decide⟩

/-- C2 amended: the decoder masks the packed byte to two-bit codes, so in
LOADI and STOREI every possible code selects some register and the
invalid-register aborts are unreachable; ADDR and SUBR validate nothing
and never abort, silently treating every code other than 1 as R2. The
interpreter never aborts because of a packed register code. -/
theorem packed_register_codes_never_abort :
    (∀ (s : VMState) (r : Nat), mread s.mem s.cpu.PC = LOADI →
        step s ≠ .error (.invalidAddrRegLOADI r) ∧
        step s ≠ .error (.invalidDestRegLOADI r)) ∧
    (∀ (s : VMState) (r : Nat), mread s.mem s.cpu.PC = STOREI →
        step s ≠ .error (.invalidAddrRegSTOREI r) ∧
        step s ≠ .error (.invalidSrcRegSTOREI r)) ∧
    (∀ (s : VMState), mread s.mem s.cpu.PC = ADDR → (step s).isOk = true) ∧
    (∀ (s : VMState), mread s.mem s.cpu.PC = SUBR → (step s).isOk = true) := by
  refine ⟨?_, ?_, ?_, ?_⟩
  · intro s r hop
    have hr2 : (mread s.mem (u16 (s.cpu.PC + 1)) >>> 6) &&& 0x03 ≤ 3 := Nat.and_le_right
    have hr1 : mread s.mem (u16 (s.cpu.PC + 1)) &&& 0x03 ≤ 3 := Nat.and_le_right
    simp only [step, hop, HALT, LOAD, LOADI, R1, R2, A1, A2]
    norm_num
    interval_cases h2 : (mread s.mem (u16 (s.cpu.PC + 1)) >>> 6) &&& 0x03 <;>
      interval_cases h1 : mread s.mem (u16 (s.cpu.PC + 1)) &&& 0x03 <;>
        exact ⟨by intro hcon; split at hcon <;> (try split at hcon) <;> simp_all,
               by intro hcon; split at hcon <;> (try split at hcon) <;> simp_all⟩
  · intro s r hop
    have hr2 : (mread s.mem (u16 (s.cpu.PC + 1)) >>> 6) &&& 0x03 ≤ 3 := Nat.and_le_right
    have hr1 : mread s.mem (u16 (s.cpu.PC + 1)) &&& 0x03 ≤ 3 := Nat.and_le_right
    simp only [step, hop, HALT, LOAD, LOADI, STORE, STOREI, R1, R2, A1, A2]
    norm_num
    interval_cases h2 : (mread s.mem (u16 (s.cpu.PC + 1)) >>> 6) &&& 0x03 <;>
      interval_cases h1 : mread s.mem (u16 (s.cpu.PC + 1)) &&& 0x03 <;>
        exact ⟨by intro hcon; simp_all, by intro hcon; simp_all⟩
  · intro s hop
    simp only [step, hop, HALT, LOAD, LOADI, STORE, STOREI, ADD, ADDR, R1, R2, A1, A2]
    norm_num
    split <;> simp [StepResult.isOk]
  · intro s hop
    simp only [step, hop, HALT, LOAD, LOADI, STORE, STOREI, ADD, ADDR, SUB, SUBR,
      R1, R2, A1, A2]
    norm_num
    split <;> simp [StepResult.isOk]

theorem packed_register_codes_never_abort_witness :
    (step { cpu := initial_cpu, mem := fun _ => 0x61, out := [] } ≠
        .error (.invalidAddrRegLOADI 0) ∧
      step { cpu := initial_cpu, mem := fun _ => 0x61, out := [] } ≠
        .error (.invalidDestRegLOADI 0)) ∧
    (step { cpu := initial_cpu, mem := fun _ => 0x63, out := [] } ≠
        .error (.invalidAddrRegSTOREI 0) ∧
      step { cpu := initial_cpu, mem := fun _ => 0x63, out := [] } ≠
        .error (.invalidSrcRegSTOREI 0)) ∧
    (step { cpu := initial_cpu, mem := fun _ => 0x69, out := [] }).isOk = true ∧
    (step { cpu := initial_cpu, mem := fun _ => 0x6b, out := [] }).isOk = true :=
  ⟨packed_register_codes_never_abort.1 { cpu := initial_cpu, mem := fun _ => 0x61, out := [] }
      0 (by decide),
   packed_register_codes_never_abort.2.1
      { cpu := initial_cpu, mem := fun _ => 0x63, out := [] } 0 (by decide),
   packed_register_codes_never_abort.2.2.1
      { cpu := initial_cpu, mem := fun _ => 0x69, out := [] } (by decide),
   packed_register_codes_never_abort.2.2.2
      { cpu := initial_cpu, mem := fun _ => 0x6b, out := [] } (by decide)⟩

/-! ## Arithmetic flags (claim C5) -/

theorem step_add_flags (s : VMState) (reg imm : Nat)
    (hpc : s.cpu.PC + 3 < MEMORY_SIZE)
    (hop : mread s.mem s.cpu.PC = ADD)
    (hreg : mread s.mem (s.cpu.PC + 1) = reg) (hdata : reg = R1 ∨ reg = R2)
    (hfetch : fetchImmediate s.mem (s.cpu.PC + 2) = some imm) :
    (step s).isOk = true ∧
    (let old := if reg = R1 then s.cpu.REG1 else s.cpu.REG2
     let result := u16 (old + imm)
     ((afterStep s).cpu.Z = true ↔ result = 0) ∧
     ((afterStep s).cpu.N = true ↔ result &&& 0x8000 ≠ 0) ∧
     ((afterStep s).cpu.O = true ↔
       (old &&& 0x8000 = imm &&& 0x8000 ∧ result &&& 0x8000 ≠ old &&& 0x8000))) := by
  have hpc' : s.cpu.PC + 3 < 32768 := hpc
  have e1 : u16 (s.cpu.PC + 1) = s.cpu.PC + 1 := by unfold u16; omega
  have e2 : u16 (s.cpu.PC + 1 + 1) = s.cpu.PC + 2 := by unfold u16; omega
  rcases hdata with rfl | rfl <;>
    · constructor
      · simp [step, hop, e1, e2, hreg, hfetch,
          HALT, LOAD, LOADI, STORE, STOREI, ADD, R1, R2, StepResult.isOk]
      · simp [afterStep, step, hop, e1, e2, hreg, hfetch, set_flags,
          HALT, LOAD, LOADI, STORE, STOREI, ADD, R1, R2,
          Bool.and_eq_true, beq_iff_eq, bne_iff_ne]

theorem step_sub_flags (s : VMState) (reg imm : Nat)
    (hpc : s.cpu.PC + 3 < MEMORY_SIZE)
    (hop : mread s.mem s.cpu.PC = SUB)
    (hreg : mread s.mem (s.cpu.PC + 1) = reg) (hdata : reg = R1 ∨ reg = R2)
    (hfetch : fetchImmediate s.mem (s.cpu.PC + 2) = some imm) :
    (step s).isOk = true ∧
    (let old := if reg = R1 then s.cpu.REG1 else s.cpu.REG2
     let result := sub16 old imm
     ((afterStep s).cpu.Z = true ↔ result = 0) ∧
     ((afterStep s).cpu.N = true ↔ result &&& 0x8000 ≠ 0) ∧
     ((afterStep s).cpu.O = true ↔
       (old &&& 0x8000 ≠ imm &&& 0x8000 ∧ result &&& 0x8000 ≠ old &&& 0x8000))) := by
  have hpc' : s.cpu.PC + 3 < 32768 := hpc
  have e1 : u16 (s.cpu.PC + 1) = s.cpu.PC + 1 := by unfold u16; omega
  have e2 : u16 (s.cpu.PC + 1 + 1) = s.cpu.PC + 2 := by unfold u16; omega
  rcases hdata with rfl | rfl <;>
    · constructor
      · simp [step, hop, e1, e2, hreg, hfetch,
          HALT, LOAD, LOADI, STORE, STOREI, ADD, ADDR, SUB, R1, R2, StepResult.isOk]
      · simp [afterStep, step, hop, e1, e2, hreg, hfetch, set_flags,
          HALT, LOAD, LOADI, STORE, STOREI, ADD, ADDR, SUB, R1, R2,
          Bool.and_eq_true, beq_iff_eq, bne_iff_ne]

theorem step_addr_flags (s : VMState) (rb : Nat)
    (hop : mread s.mem s.cpu.PC = ADDR)
    (hrb : mread s.mem (u16 (s.cpu.PC + 1)) = rb)
    (hdest : rb &&& 0x03 = R1 ∨ rb &&& 0x03 = R2)
    (hsrc : (rb >>> 6) &&& 0x03 = R1 ∨ (rb >>> 6) &&& 0x03 = R2) :
    (step s).isOk = true ∧
    (let src := if (rb >>> 6) &&& 0x03 = R1 then s.cpu.REG1 else s.cpu.REG2
     let old := if rb &&& 0x03 = R1 then s.cpu.REG1 else s.cpu.REG2
     let result := u16 (old + src)
     ((afterStep s).cpu.Z = true ↔ result = 0) ∧
     ((afterStep s).cpu.N = true ↔ result &&& 0x8000 ≠ 0) ∧
     ((afterStep s).cpu.O = true ↔
       (old &&& 0x8000 = src &&& 0x8000 ∧ result &&& 0x8000 ≠ old &&& 0x8000))) := by
  rcases hdest with hd | hd <;> rcases hsrc with hs | hs <;>
    · constructor
      · simp [step, hop, hrb, hd, hs,
          HALT, LOAD, LOADI, STORE, STOREI, ADD, ADDR, R1, R2, StepResult.isOk]
      · simp [afterStep, step, hop, hrb, hd, hs, set_flags,
          HALT, LOAD, LOADI, STORE, STOREI, ADD, ADDR, R1, R2,
          Bool.and_eq_true, beq_iff_eq, bne_iff_ne]

theorem step_subr_flags (s : VMState) (rb : Nat)
    (hop : mread s.mem s.cpu.PC = SUBR)
    (hrb : mread s.mem (u16 (s.cpu.PC + 1)) = rb)
    (hdest : rb &&& 0x03 = R1 ∨ rb &&& 0x03 = R2)
    (hsrc : (rb >>> 6) &&& 0x03 = R1 ∨ (rb >>> 6) &&& 0x03 = R2) :
    (step s).isOk = true ∧
    (let src := if (rb >>> 6) &&& 0x03 = R1 then s.cpu.REG1 else s.cpu.REG2
     let old := if rb &&& 0x03 = R1 then s.cpu.REG1 else s.cpu.REG2
     let result := sub16 old src
     ((afterStep s).cpu.Z = true ↔ result = 0) ∧
     ((afterStep s).cpu.N = true ↔ result &&& 0x8000 ≠ 0) ∧
     ((afterStep s).cpu.O = true ↔
       (old &&& 0x8000 ≠ src &&& 0x8000 ∧ result &&& 0x8000 ≠ old &&& 0x8000))) := by
  rcases hdest with hd | hd <;> rcases hsrc with hs | hs <;>
    · constructor
      · simp [step, hop, hrb, hd, hs,
          HALT, LOAD, LOADI, STORE, STOREI, ADD, ADDR, SUB, SUBR, R1, R2, StepResult.isOk]
      · simp [afterStep, step, hop, hrb, hd, hs, set_flags,
          HALT, LOAD, LOADI, STORE, STOREI, ADD, ADDR, SUB, SUBR, R1, R2,
          Bool.and_eq_true, beq_iff_eq, bne_iff_ne]

/-- C5: for ADD/ADDR executed on a data register, Z and N come from the
16-bit wrapped result and O is set iff both operands share a sign bit and
the result's sign differs; for SUB/SUBR, Z and N come from the wrapped
result and O is set iff the operands' signs differ and the result's sign
differs from the first operand's. In particular the program
`ADD R1, 32767; ADD R1, 1` run from the zeroed initial state ends with
O=1, N=1, Z=0 and R1 = 32768. -/
theorem arithmetic_flag_semantics :
    (∀ (s : VMState) (reg imm : Nat),
      s.cpu.PC + 3 < MEMORY_SIZE →
      mread s.mem s.cpu.PC = ADD →
      mread s.mem (s.cpu.PC + 1) = reg → (reg = R1 ∨ reg = R2) →
      fetchImmediate s.mem (s.cpu.PC + 2) = some imm →
      (step s).isOk = true ∧
      (let old := if reg = R1 then s.cpu.REG1 else s.cpu.REG2
       let result := u16 (old + imm)
       ((afterStep s).cpu.Z = true ↔ result = 0) ∧
       ((afterStep s).cpu.N = true ↔ result &&& 0x8000 ≠ 0) ∧
       ((afterStep s).cpu.O = true ↔
         (old &&& 0x8000 = imm &&& 0x8000 ∧ result &&& 0x8000 ≠ old &&& 0x8000)))) ∧
    (∀ (s : VMState) (rb : Nat),
      mread s.mem s.cpu.PC = ADDR →
      mread s.mem (u16 (s.cpu.PC + 1)) = rb →
      (rb &&& 0x03 = R1 ∨ rb &&& 0x03 = R2) →
      ((rb >>> 6) &&& 0x03 = R1 ∨ (rb >>> 6) &&& 0x03 = R2) →
      (step s).isOk = true ∧
      (let src := if (rb >>> 6) &&& 0x03 = R1 then s.cpu.REG1 else s.cpu.REG2
       let old := if rb &&& 0x03 = R1 then s.cpu.REG1 else s.cpu.REG2
       let result := u16 (old + src)
       ((afterStep s).cpu.Z = true ↔ result = 0) ∧
       ((afterStep s).cpu.N = true ↔ result &&& 0x8000 ≠ 0) ∧
       ((afterStep s).cpu.O = true ↔
         (old &&& 0x8000 = src &&& 0x8000 ∧ result &&& 0x8000 ≠ old &&& 0x8000)))) ∧
    (∀ (s : VMState) (reg imm : Nat),
      s.cpu.PC + 3 < MEMORY_SIZE →
      mread s.mem s.cpu.PC = SUB →
      mread s.mem (s.cpu.PC + 1) = reg → (reg = R1 ∨ reg = R2) →
      fetchImmediate s.mem (s.cpu.PC + 2) = some imm →
      (step s).isOk = true ∧
      (let old := if reg = R1 then s.cpu.REG1 else s.cpu.REG2
       let result := sub16 old imm
       ((afterStep s).cpu.Z = true ↔ result = 0) ∧
       ((afterStep s).cpu.N = true ↔ result &&& 0x8000 ≠ 0) ∧
       ((afterStep s).cpu.O = true ↔
         (old &&& 0x8000 ≠ imm &&& 0x8000 ∧ result &&& 0x8000 ≠ old &&& 0x8000)))) ∧
    (∀ (s : VMState) (rb : Nat),
      mread s.mem s.cpu.PC = SUBR →
      mread s.mem (u16 (s.cpu.PC + 1)) = rb →
      (rb &&& 0x03 = R1 ∨ rb &&& 0x03 = R2) →
      ((rb >>> 6) &&& 0x03 = R1 ∨ (rb >>> 6) &&& 0x03 = R2) →
      (step s).isOk = true ∧
      (let src := if (rb >>> 6) &&& 0x03 = R1 then s.cpu.REG1 else s.cpu.REG2
       let old := if rb &&& 0x03 = R1 then s.cpu.REG1 else s.cpu.REG2
       let result := sub16 old src
       ((afterStep s).cpu.Z = true ↔ result = 0) ∧
       ((afterStep s).cpu.N = true ↔ result &&& 0x8000 ≠ 0) ∧
       ((afterStep s).cpu.O = true ↔
         (old &&& 0x8000 ≠ src &&& 0x8000 ∧ result &&& 0x8000 ≠ old &&& 0x8000)))) ∧
    ((step (initial_state [0x68, 1, 0x7F, 0xFF, 0x68, 1, 0x00, 0x01])).isOk = true ∧
     (step (afterStep (initial_state [0x68, 1, 0x7F, 0xFF, 0x68, 1, 0x00, 0x01]))).isOk
       = true ∧
     (afterStep (afterStep (initial_state [0x68, 1, 0x7F, 0xFF, 0x68, 1, 0x00, 0x01]))).cpu.O
       = true ∧
     (afterStep (afterStep (initial_state [0x68, 1, 0x7F, 0xFF, 0x68, 1, 0x00, 0x01]))).cpu.N
       = true ∧
     (afterStep (afterStep (initial_state [0x68, 1, 0x7F, 0xFF, 0x68, 1, 0x00, 0x01]))).cpu.Z
       = false ∧
     (afterStep (afterStep (initial_state [0x68, 1, 0x7F, 0xFF, 0x68, 1, 0x00, 0x01]))).cpu.REG1
       = 32768) :=
  ⟨step_add_flags, step_addr_flags, step_sub_flags, step_subr_flags,
   by decide, by decide, by decide, by decide, by decide, by decide⟩

theorem arithmetic_flag_semantics_witness :
    (step (initial_state [0x68, 1, 0x00, 0x05])).isOk = true ∧
    (let old := if 1 = R1 then (initial_state [0x68, 1, 0x00, 0x05]).cpu.REG1
                else (initial_state [0x68, 1, 0x00, 0x05]).cpu.REG2
     let result := u16 (old + 5)
     ((afterStep (initial_state [0x68, 1, 0x00, 0x05])).cpu.Z = true ↔ result = 0) ∧
     ((afterStep (initial_state [0x68, 1, 0x00, 0x05])).cpu.N = true ↔
        result &&& 0x8000 ≠ 0) ∧
     ((afterStep (initial_state [0x68, 1, 0x00, 0x05])).cpu.O = true ↔
        (old &&& 0x8000 = 5 &&& 0x8000 ∧ result &&& 0x8000 ≠ old &&& 0x8000))) :=
  arithmetic_flag_semantics.1 (initial_state [0x68, 1, 0x00, 0x05]) 1 5
    (by decide) (by decide) (by decide) (Or.inl rfl) (by decide)

/-! ## Parsing lemmas for clean tokens -/

theorem preproc_id (m mid op : Line) (hm : cleanTok m) (ho : cleanTok op)
    (hmid : ∀ c ∈ mid, c ≠ '#') :
    trim_whitespace (strip_comments (m ++ (mid ++ op))) = m ++ (mid ++ op) := by
  have hs : strip_comments (m ++ (mid ++ op)) = m ++ (mid ++ op) := by
    unfold strip_comments
    apply takeWhile_all
    intro c hc
    simp only [List.mem_append] at hc
    rcases hc with h | h | h
    · simpa using (hm.2 c h).2.2
    · simpa using hmid c h
    · simpa using (ho.2 c h).2.2
  rw [hs]
  unfold trim_whitespace
  rw [dropWhile_append_all hm.1 (fun c hc => (hm.2 c hc).1)]
  rw [show (m ++ (mid ++ op)).reverse = op.reverse ++ (mid.reverse ++ m.reverse) by simp]
  rw [dropWhile_append_all (by simpa using ho.1)
      (fun c hc => (ho.2 c (List.mem_reverse.mp hc)).1)]
  simp

theorem preproc_tok (t : Line) (ht : cleanTok t) :
    trim_whitespace (strip_comments t) = t := by
  have hs : strip_comments t = t := by
    unfold strip_comments
    exact takeWhile_all (fun c hc => by simpa using (ht.2 c hc).2.2)
  rw [hs]
  unfold trim_whitespace
  rw [dropWhile_all_false (fun c hc => (ht.2 c hc).1)]
  rw [dropWhile_all_false (fun c hc => (ht.2 c (List.mem_reverse.mp hc)).1)]
  simp

theorem scanToken_clean (m rest : Line) (hm : cleanTok m) :
    scanToken (m ++ ' ' :: rest) = some (m, ' ' :: rest) := by
  obtain ⟨a, t, rfl⟩ := List.exists_cons_of_ne_nil hm.1
  unfold scanToken
  rw [dropWhile_append_all (by simp) (fun c hc => (hm.2 c hc).1)]
  simp only []
  rw [takeWhile_append_stop (fun c hc => by simp [(hm.2 c hc).1]) (by decide)]
  show some (a :: t, ((a :: t) ++ ' ' :: rest).drop (a :: t).length) = _
  rw [List.drop_left]

theorem scanToken_tok (t : Line) (ht : cleanTok t) : scanToken t = some (t, []) := by
  obtain ⟨a, r, rfl⟩ := List.exists_cons_of_ne_nil ht.1
  unfold scanToken
  rw [dropWhile_all_false (fun c hc => (ht.2 c hc).1)]
  simp only []
  rw [takeWhile_all (fun c hc => by simp [(ht.2 c hc).1])]
  show some (a :: r, (a :: r).drop (a :: r).length) = _
  rw [List.drop_length]

theorem scanToken_space (op : Line) (ho : cleanTok op) :
    scanToken (' ' :: op) = some (op, []) := by
  obtain ⟨a, r, rfl⟩ := List.exists_cons_of_ne_nil ho.1
  unfold scanToken
  rw [List.dropWhile_cons, if_pos (by decide)]
  rw [dropWhile_all_false (fun c hc => (ho.2 c hc).1)]
  simp only []
  rw [takeWhile_all (fun c hc => by simp [(ho.2 c hc).1])]
  show some (a :: r, (a :: r).drop (a :: r).length) = _
  rw [List.drop_length]

theorem sscanf_label_tok (t : Line) (ht : cleanTok t) : sscanf_label t = none := by
  unfold sscanf_label
  rw [scanToken_tok t ht]
  rfl

theorem parse1_tok (t : Line) (ht : cleanTok t) : parse1 t = some t := by
  unfold parse1
  rw [scanToken_tok t ht]
  rfl

theorem parse_shape_one (m op : Line) (hm : cleanTok m) (ho : cleanTok op) :
    parse3 (m ++ ' ' :: op) = none ∧ parse2 (m ++ ' ' :: op) = some (m, op) := by
  have h1 := scanToken_clean m op hm
  have hdw : (' ' :: op).dropWhile isspace = op := by
    rw [List.dropWhile_cons, if_pos (by decide)]
    exact dropWhile_all_false (fun c hc => (ho.2 c hc).1)
  constructor
  · unfold parse3
    rw [h1]
    simp only []
    rw [hdw, List.span_eq_take_drop]
    rw [takeWhile_all (fun c hc => by simpa using (ho.2 c hc).2.1)]
    rw [List.dropWhile_eq_nil_iff.mpr (fun c hc => by simpa using (ho.2 c hc).2.1)]
    obtain ⟨a, r, rfl⟩ := List.exists_cons_of_ne_nil ho.1
    rfl
  · unfold parse2
    rw [h1]
    simp only []
    rw [scanToken_space op ho]

theorem parse_shape_two (m op1 op2 : Line) (hm : cleanTok m) (h1 : cleanTok op1)
    (h2 : cleanTok op2) :
    parse3 (m ++ ' ' :: (op1 ++ ',' :: ' ' :: op2)) = some (m, op1, op2) := by
  have hsc := scanToken_clean m (op1 ++ ',' :: ' ' :: op2) hm
  unfold parse3
  rw [hsc]
  simp only []
  have hdw : (' ' :: (op1 ++ ',' :: ' ' :: op2)).dropWhile isspace =
      op1 ++ ',' :: ' ' :: op2 := by
    rw [List.dropWhile_cons, if_pos (by decide)]
    exact dropWhile_append_all h1.1 (fun c hc => (h1.2 c hc).1)
  rw [hdw, List.span_eq_take_drop]
  rw [takeWhile_append_stop (fun c hc => by simpa using (h1.2 c hc).2.1) (by decide)]
  rw [dropWhile_append_stop (fun c hc => by simpa using (h1.2 c hc).2.1) (by decide)]
  obtain ⟨a, r, rfl⟩ := List.exists_cons_of_ne_nil h1.1
  simp only [scanToken_space op2 h2]

/-! ## Lone labels (claim C8) -/

theorem instr_size_none_of_not_mnemonic {t : Line} (h : is_mnemonic t = false) :
    instr_size t = none := by
  unfold instr_size
  split_ifs with h1 h2 h3 h4 <;> simp_all [is_mnemonic]

/-- C8: a preprocessed line consisting of exactly one token that is not a
reserved mnemonic is never registered as a label: `first_pass` classifies
it through its single-token branch and aborts with the unknown-instruction
error, leaving the symbol table untouched. Label recognition requires the
token to be followed by whitespace and further content, as the second
conjunct shows for `foo HALT` (label `foo` registered at the location
counter, line rewritten to `HALT`). -/
theorem lone_label_not_registered :
    (∀ (table : Table) (lc : Nat) (t : Line),
        cleanTok t → is_mnemonic t = false →
        first_pass_line table lc t = .error (.unknownInstructionP1 t)) ∧
    first_pass_line [] 0 (chars "foo HALT") = .ok ([(chars "foo", 0)], 1, chars "HALT") := by
  constructor
  · intro table lc t ht hm
    unfold first_pass_line
    rw [preproc_tok t ht]
    simp only []
    rw [if_neg ht.1]
    rw [sscanf_label_tok t ht]
    simp only []
    rw [parse1_tok t ht]
    simp only []
    rw [instr_size_none_of_not_mnemonic hm]
  · rfl

theorem lone_label_not_registered_witness :
    first_pass_line [] 0 (chars "foo") = .error (.unknownInstructionP1 (chars "foo")) :=
  lone_label_not_registered.1 [] 0 (chars "foo") (by decide) (by decide)

/-! ## Unknown mnemonics abort Pass 1 (claim C7) -/

theorem first_pass_line_known {table : Table} {lc : Nat} {line : Line}
    {res : Table × Nat × Line}
    (h : first_pass_line table lc line = .ok res) :
    ∀ t, line_mnemonic line = some t → instr_size t ≠ none := by
  intro t ht
  unfold first_pass_line at h
  unfold line_mnemonic at ht
  simp only [] at h ht
  by_cases hL : trim_whitespace (strip_comments line) = []
  · simp only [if_pos hL] at ht
    exact Option.noConfusion ht
  · simp only [if_neg hL] at h ht
    cases hs : sscanf_label (trim_whitespace (strip_comments line)) with
    | none =>
      simp only [hs] at h ht
      simp only [ht] at h
      cases hsz : instr_size t with
      | none => simp only [hsz] at h; exact Except.noConfusion h
      | some n => simp [hsz]
    | some p =>
      obtain ⟨label, rest⟩ := p
      simp only [hs] at h ht
      by_cases him : is_mnemonic label = true
      · simp [him] at h ht
        simp only [ht] at h
        cases hsz : instr_size t with
        | none => simp only [hsz] at h; exact Except.noConfusion h
        | some n => simp [hsz]
      · rw [Bool.not_eq_true] at him
        simp [him] at h ht
        cases hal : add_label table label lc with
        | error e => simp only [hal] at h; exact Except.noConfusion h
        | ok t2 =>
          simp only [hal] at h
          simp only [ht] at h
          cases hsz : instr_size t with
          | none => simp only [hsz] at h; exact Except.noConfusion h
          | some n => simp [hsz]

theorem first_pass_aux_ok_known {lines : List Line} :
    ∀ {table : Table} {lc : Nat} {res : Table × List Line},
      first_pass_aux table lc lines = .ok res →
      ∀ l ∈ lines, ∀ t, line_mnemonic l = some t → instr_size t ≠ none := by
  induction lines with
  | nil =>
    intro _ _ _ _ l hl
    exact absurd hl (List.not_mem_nil l)
  | cons a rest ih =>
    intro table lc res h l hl t ht
    unfold first_pass_aux at h
    cases h1 : first_pass_line table lc a with
    | error e => rw [h1] at h; exact Except.noConfusion h
    | ok trip =>
      obtain ⟨t2, lc2, l2⟩ := trip
      rw [h1] at h
      simp only [] at h
      cases h2 : first_pass_aux t2 lc2 rest with
      | error e => rw [h2] at h; exact Except.noConfusion h
      | ok r2 =>
        rcases List.mem_cons.mp hl with rfl | hl'
        · exact first_pass_line_known h1 t ht
        · exact ih h2 l hl' t ht

/-- C7: a source program with a line whose mnemonic (the first token after
the optional label strip) is not a recognized instruction makes the
translator abort during Pass 1: `assemble` emits no bytes at all and
reports an error — it never produces partial binary output on such a
failure (a Pass 2 failure, by contrast, does leave earlier lines' bytes
emitted). -/
theorem unknown_mnemonic_aborts_without_output (lines : List Line)
    (h : ∃ l ∈ lines, ∃ t, line_mnemonic l = some t ∧ instr_size t = none) :
    (assemble lines).1 = [] ∧ (assemble lines).2.isSome = true := by
  obtain ⟨l, hl, t, ht, hsz⟩ := h
  unfold assemble
  cases hfp : first_pass lines with
  | error e => exact ⟨rfl, rfl⟩
  | ok res =>
    exfalso
    unfold first_pass at hfp
    exact first_pass_aux_ok_known hfp l hl t ht hsz

theorem unknown_mnemonic_aborts_without_output_witness :
    (assemble [chars "FOO"]).1 = [] ∧ (assemble [chars "FOO"]).2.isSome = true :=
  unknown_mnemonic_aborts_without_output [chars "FOO"]
    ⟨chars "FOO", by decide, chars "FOO", by decide, by decide⟩

/-! ## Pass 1 / Pass 2 length lockstep (claim C4) -/

theorem parse3_parse1 {l i o1 o2 : Line} (h : parse3 l = some (i, o1, o2)) :
    parse1 l = some i := by
  unfold parse3 at h
  unfold parse1
  cases hscan : scanToken l with
  | none => rw [hscan] at h; exact Option.noConfusion h
  | some p =>
    obtain ⟨tok, r⟩ := p
    rw [hscan] at h
    simp only [] at h
    simp only [Option.map_some']
    repeat' split at h
    all_goals simp_all

theorem parse2_parse1 {l i o1 : Line} (h : parse2 l = some (i, o1)) :
    parse1 l = some i := by
  unfold parse2 at h
  unfold parse1
  cases hscan : scanToken l with
  | none => rw [hscan] at h; exact Option.noConfusion h
  | some p =>
    obtain ⟨tok, r⟩ := p
    rw [hscan] at h
    simp only [] at h
    simp only [Option.map_some']
    repeat' split at h
    all_goals simp_all

/-- C4: whenever Pass 2 emits bytes for a (nonempty) line, the mnemonic of
that line — its first token, exactly what Pass 1 sizes it by — has an
`instr_size` equal to the number of emitted bytes, and the two length
tables are the claim's: 1 for HALT, 4 for LOAD/STORE/JMP/JMPZ/JMPN/JMPO/
ADD/SUB/OUT/OUTC, 2 for LOADI/STOREI/ADDR/SUBR/OUTR/OUTRC/OUTI/OUTIC/DATA. -/
theorem pass_lengths_lockstep :
    (∀ (table : Table) (line : Line) (bytes : List Nat),
        encode_line table line = .ok bytes →
        trim_whitespace (strip_comments line) ≠ [] →
        ∃ t, parse1 (trim_whitespace (strip_comments line)) = some t ∧
             instr_size t = some bytes.length) ∧
    (instr_size (chars "HALT") = some 1 ∧
     instr_size (chars "LOAD") = some 4 ∧ instr_size (chars "STORE") = some 4 ∧
     instr_size (chars "JMP") = some 4 ∧ instr_size (chars "JMPZ") = some 4 ∧
     instr_size (chars "JMPN") = some 4 ∧ instr_size (chars "JMPO") = some 4 ∧
     instr_size (chars "ADD") = some 4 ∧ instr_size (chars "SUB") = some 4 ∧
     instr_size (chars "OUT") = some 4 ∧ instr_size (chars "OUTC") = some 4 ∧
     instr_size (chars "LOADI") = some 2 ∧ instr_size (chars "STOREI") = some 2 ∧
     instr_size (chars "ADDR") = some 2 ∧ instr_size (chars "SUBR") = some 2 ∧
     instr_size (chars "OUTR") = some 2 ∧ instr_size (chars "OUTRC") = some 2 ∧
     instr_size (chars "OUTI") = some 2 ∧ instr_size (chars "OUTIC") = some 2 ∧
     instr_size (chars "DATA") = some 2) := by
  refine ⟨?_, by decide⟩
  intro table line bytes h hne
  unfold encode_line at h
  try simp only [] at h
  rw [if_neg hne] at h
  cases h3 : parse3 (trim_whitespace (strip_comments line)) with
  | some trip =>
    obtain ⟨i, o1, o2⟩ := trip
    rw [h3] at h
    try simp only [] at h
    refine ⟨i, parse3_parse1 h3, ?_⟩
    by_cases hg1 : (i = chars "LOAD" || i = chars "ADD" ||
        i = chars "SUB" || i = chars "STORE") = true
    · rw [if_pos hg1] at h
      try simp only [] at h
      by_cases hr : get_register_code o1 = 0xFF
      · rw [if_pos hr] at h
        exact Except.noConfusion h
      · rw [if_neg hr] at h
        injection h with hb
        subst hb
        simp only [List.length_cons, List.length_nil]
        simp only [Bool.or_eq_true, decide_eq_true_eq] at hg1
        rcases hg1 with ((rfl | rfl) | rfl) | rfl <;> decide
    · rw [if_neg hg1] at h
      by_cases hg2 : (i = chars "LOADI" || i = chars "STOREI" ||
          i = chars "ADDR" || i = chars "SUBR") = true
      · rw [if_pos hg2] at h
        try simp only [] at h
        by_cases hr : get_register_code o1 = 0xFF ∨ get_register_code o2 = 0xFF
        · rw [if_pos hr] at h
          exact Except.noConfusion h
        · rw [if_neg hr] at h
          injection h with hb
          subst hb
          simp only [List.length_cons, List.length_nil]
          simp only [Bool.or_eq_true, decide_eq_true_eq] at hg2
          rcases hg2 with ((rfl | rfl) | rfl) | rfl <;> decide
      · rw [if_neg hg2] at h
        exact Except.noConfusion h
  | none =>
    rw [h3] at h
    cases h2 : parse2 (trim_whitespace (strip_comments line)) with
    | some pr =>
      obtain ⟨i, o1⟩ := pr
      rw [h2] at h
      try simp only [] at h
      refine ⟨i, parse2_parse1 h2, ?_⟩
      by_cases hbig : (i = chars "JMP" || i = chars "JMPZ" || i = chars "JMPN" ||
          i = chars "JMPO" || i = chars "DATA" || i = chars "OUTR" ||
          i = chars "OUTRC" || i = chars "OUTI" || i = chars "OUTIC" ||
          i = chars "OUT" || i = chars "OUTC") = true
      · rw [if_pos hbig] at h
        by_cases hA : (i = chars "OUTR" || i = chars "OUTRC" ||
            i = chars "OUTI" || i = chars "OUTIC") = true
        · rw [if_pos hA] at h
          try simp only [] at h
          by_cases hr : get_register_code o1 = 0xFF
          · rw [if_pos hr] at h
            exact Except.noConfusion h
          · rw [if_neg hr] at h
            injection h with hb
            subst hb
            simp only [List.length_cons, List.length_nil]
            simp only [Bool.or_eq_true, decide_eq_true_eq] at hA
            rcases hA with ((rfl | rfl) | rfl) | rfl <;> decide
        · rw [if_neg hA] at h
          by_cases hB : (i = chars "OUT" || i = chars "OUTC") = true
          · rw [if_pos hB] at h
            try simp only [] at h
            injection h with hb
            subst hb
            simp only [List.length_cons, List.length_nil]
            simp only [Bool.or_eq_true, decide_eq_true_eq] at hB
            rcases hB with rfl | rfl <;> decide
          · rw [if_neg hB] at h
            by_cases hC : i = chars "DATA"
            · rw [if_pos hC] at h
              try simp only [] at h
              injection h with hb
              subst hb
              subst hC
              simp only [List.length_cons, List.length_nil]
              decide
            · rw [if_neg hC] at h
              try simp only [] at h
              cases hfl : find_label table o1 with
              | none =>
                rw [hfl] at h
                exact Except.noConfusion h
              | some address =>
                rw [hfl] at h
                injection h with hb
                subst hb
                simp only [List.length_cons, List.length_nil]
                simp only [Bool.or_eq_true, decide_eq_true_eq] at hbig
                rcases hbig with
                  (((((((((rfl | rfl) | rfl) | rfl) | rfl) | rfl) | rfl) | rfl) | rfl) | rfl) | rfl
                all_goals first
                  | decide
                  | exact absurd rfl hC
                  | exact absurd (by decide) hA
      · rw [if_neg hbig] at h
        exact Except.noConfusion h
    | none =>
      rw [h2] at h
      cases h1 : parse1 (trim_whitespace (strip_comments line)) with
      | none =>
        rw [h1] at h
        exact Except.noConfusion h
      | some i =>
        rw [h1] at h
        try simp only [] at h
        refine ⟨i, rfl, ?_⟩
        by_cases hH : i = chars "HALT"
        · rw [if_pos hH] at h
          injection h with hb
          subst hb
          subst hH
          decide
        · rw [if_neg hH] at h
          exact Except.noConfusion h

theorem pass_lengths_lockstep_witness :
    ∃ t, parse1 (trim_whitespace (strip_comments (chars "LOAD R1, 5"))) = some t ∧
         instr_size t = some (List.length ([0x60, 1, 0, 5] : List Nat)) :=
  pass_lengths_lockstep.1 [] (chars "LOAD R1, 5") [0x60, 1, 0, 5] rfl (by decide)

/-! ## Undefined-label asymmetry (claim C6) -/

/-- C6: during Pass 2 operand resolution, an operand absent from the
symbol table is a fatal undefined-label error for the four jump
mnemonics, while for LOAD/STORE/ADD/SUB/OUT/OUTC/DATA the same lookup
miss silently falls back to parsing the operand as a literal decimal
integer (`(uint16_t)atoi`) and the line assembles. -/
theorem operand_resolution_asymmetry (table : Table) (op : Line)
    (hop : cleanTok op) (hlbl : find_label table op = none) :
    (encode_line table (chars "JMP" ++ ' ' :: op) = .error (.undefinedLabel op) ∧
     encode_line table (chars "JMPZ" ++ ' ' :: op) = .error (.undefinedLabel op) ∧
     encode_line table (chars "JMPN" ++ ' ' :: op) = .error (.undefinedLabel op) ∧
     encode_line table (chars "JMPO" ++ ' ' :: op) = .error (.undefinedLabel op)) ∧
    (encode_line table (chars "LOAD" ++ ' ' :: (chars "R1" ++ ',' :: ' ' :: op)) =
       .ok [LOAD, 1, (u16ofInt (atoi op) >>> 8) &&& 0xFF, u16ofInt (atoi op) &&& 0xFF] ∧
     encode_line table (chars "STORE" ++ ' ' :: (chars "R1" ++ ',' :: ' ' :: op)) =
       .ok [STORE, 1, (u16ofInt (atoi op) >>> 8) &&& 0xFF, u16ofInt (atoi op) &&& 0xFF] ∧
     encode_line table (chars "ADD" ++ ' ' :: (chars "R1" ++ ',' :: ' ' :: op)) =
       .ok [ADD, 1, (u16ofInt (atoi op) >>> 8) &&& 0xFF, u16ofInt (atoi op) &&& 0xFF] ∧
     encode_line table (chars "SUB" ++ ' ' :: (chars "R1" ++ ',' :: ' ' :: op)) =
       .ok [SUB, 1, (u16ofInt (atoi op) >>> 8) &&& 0xFF, u16ofInt (atoi op) &&& 0xFF] ∧
     encode_line table (chars "OUT" ++ ' ' :: op) =
       .ok [OUT, 0, (u16ofInt (atoi op) >>> 8) &&& 0xFF, u16ofInt (atoi op) &&& 0xFF] ∧
     encode_line table (chars "OUTC" ++ ' ' :: op) =
       .ok [OUTC, 0, (u16ofInt (atoi op) >>> 8) &&& 0xFF, u16ofInt (atoi op) &&& 0xFF] ∧
     encode_line table (chars "DATA" ++ ' ' :: op) =
       .ok [(u16ofInt (atoi op) >>> 8) &&& 0xFF, u16ofInt (atoi op) &&& 0xFF]) := by
  have key1 : ∀ m : Line, cleanTok m →
      trim_whitespace (strip_comments (m ++ ' ' :: op)) = m ++ ' ' :: op := by
    intro m hm
    have := preproc_id m [' '] op hm hop (by decide)
    simpa using this
  have key2 : ∀ m : Line, cleanTok m →
      trim_whitespace (strip_comments (m ++ ' ' :: (chars "R1" ++ ',' :: ' ' :: op))) =
        m ++ ' ' :: (chars "R1" ++ ',' :: ' ' :: op) := by
    intro m hm
    have := preproc_id m (' ' :: (chars "R1" ++ [',', ' '])) op hm hop (by decide)
    simpa using this
  refine ⟨⟨?_, ?_, ?_, ?_⟩, ?_, ?_, ?_, ?_, ?_, ?_, ?_⟩
  · have hp := parse_shape_one (chars "JMP") op (by decide) hop
    unfold encode_line
    try simp only []
    rw [key1 (chars "JMP") (by decide), if_neg (by simp), hp.1]
    try simp only []
    rw [hp.2]
    try simp only []
    rw [if_pos (by decide), if_neg (by decide), if_neg (by decide), if_neg (by decide)]
    try simp only []
    rw [hlbl]
  · have hp := parse_shape_one (chars "JMPZ") op (by decide) hop
    unfold encode_line
    try simp only []
    rw [key1 (chars "JMPZ") (by decide), if_neg (by simp), hp.1]
    try simp only []
    rw [hp.2]
    try simp only []
    rw [if_pos (by decide), if_neg (by decide), if_neg (by decide), if_neg (by decide)]
    try simp only []
    rw [hlbl]
  · have hp := parse_shape_one (chars "JMPN") op (by decide) hop
    unfold encode_line
    try simp only []
    rw [key1 (chars "JMPN") (by decide), if_neg (by simp), hp.1]
    try simp only []
    rw [hp.2]
    try simp only []
    rw [if_pos (by decide), if_neg (by decide), if_neg (by decide), if_neg (by decide)]
    try simp only []
    rw [hlbl]
  · have hp := parse_shape_one (chars "JMPO") op (by decide) hop
    unfold encode_line
    try simp only []
    rw [key1 (chars "JMPO") (by decide), if_neg (by simp), hp.1]
    try simp only []
    rw [hp.2]
    try simp only []
    rw [if_pos (by decide), if_neg (by decide), if_neg (by decide), if_neg (by decide)]
    try simp only []
    rw [hlbl]
  · have hp := parse_shape_two (chars "LOAD") (chars "R1") op (by decide) (by decide) hop
    unfold encode_line
    try simp only []
    rw [key2 (chars "LOAD") (by decide), if_neg (by simp), hp]
    try simp only []
    rw [if_pos (by decide)]
    try simp only []
    rw [if_neg (by decide)]
    rw [hlbl]
    rfl
  · have hp := parse_shape_two (chars "STORE") (chars "R1") op (by decide) (by decide) hop
    unfold encode_line
    try simp only []
    rw [key2 (chars "STORE") (by decide), if_neg (by simp), hp]
    try simp only []
    rw [if_pos (by decide)]
    try simp only []
    rw [if_neg (by decide)]
    rw [hlbl]
    rfl
  · have hp := parse_shape_two (chars "ADD") (chars "R1") op (by decide) (by decide) hop
    unfold encode_line
    try simp only []
    rw [key2 (chars "ADD") (by decide), if_neg (by simp), hp]
    try simp only []
    rw [if_pos (by decide)]
    try simp only []
    rw [if_neg (by decide)]
    rw [hlbl]
    rfl
  · have hp := parse_shape_two (chars "SUB") (chars "R1") op (by decide) (by decide) hop
    unfold encode_line
    try simp only []
    rw [key2 (chars "SUB") (by decide), if_neg (by simp), hp]
    try simp only []
    rw [if_pos (by decide)]
    try simp only []
    rw [if_neg (by decide)]
    rw [hlbl]
    rfl
  · have hp := parse_shape_one (chars "OUT") op (by decide) hop
    unfold encode_line
    try simp only []
    rw [key1 (chars "OUT") (by decide), if_neg (by simp), hp.1]
    try simp only []
    rw [hp.2]
    try simp only []
    rw [if_pos (by decide), if_neg (by decide), if_pos (by decide)]
    try simp only []
    rw [hlbl]
    rfl
  · have hp := parse_shape_one (chars "OUTC") op (by decide) hop
    unfold encode_line
    try simp only []
    rw [key1 (chars "OUTC") (by decide), if_neg (by simp), hp.1]
    try simp only []
    rw [hp.2]
    try simp only []
    rw [if_pos (by decide), if_neg (by decide), if_pos (by decide)]
    try simp only []
    rw [hlbl]
    rfl
  · have hp := parse_shape_one (chars "DATA") op (by decide) hop
    unfold encode_line
    try simp only []
    rw [key1 (chars "DATA") (by decide), if_neg (by simp), hp.1]
    try simp only []
    rw [hp.2]
    try simp only []
    rw [if_pos (by decide), if_neg (by decide), if_neg (by decide), if_pos (by decide)]
    try simp only []
    rw [hlbl]

theorem operand_resolution_asymmetry_witness :
    (encode_line [] (chars "JMP" ++ ' ' :: chars "undefined_label") =
       .error (.undefinedLabel (chars "undefined_label")) ∧
     encode_line [] (chars "JMPZ" ++ ' ' :: chars "undefined_label") =
       .error (.undefinedLabel (chars "undefined_label")) ∧
     encode_line [] (chars "JMPN" ++ ' ' :: chars "undefined_label") =
       .error (.undefinedLabel (chars "undefined_label")) ∧
     encode_line [] (chars "JMPO" ++ ' ' :: chars "undefined_label") =
       .error (.undefinedLabel (chars "undefined_label"))) ∧
    (encode_line [] (chars "LOAD" ++ ' ' :: (chars "R1" ++ ',' :: ' ' :: chars "undefined_label")) =
       .ok [LOAD, 1, (u16ofInt (atoi (chars "undefined_label")) >>> 8) &&& 0xFF,
            u16ofInt (atoi (chars "undefined_label")) &&& 0xFF] ∧
     encode_line [] (chars "STORE" ++ ' ' :: (chars "R1" ++ ',' :: ' ' :: chars "undefined_label")) =
       .ok [STORE, 1, (u16ofInt (atoi (chars "undefined_label")) >>> 8) &&& 0xFF,
            u16ofInt (atoi (chars "undefined_label")) &&& 0xFF] ∧
     encode_line [] (chars "ADD" ++ ' ' :: (chars "R1" ++ ',' :: ' ' :: chars "undefined_label")) =
       .ok [ADD, 1, (u16ofInt (atoi (chars "undefined_label")) >>> 8) &&& 0xFF,
            u16ofInt (atoi (chars "undefined_label")) &&& 0xFF] ∧
     encode_line [] (chars "SUB" ++ ' ' :: (chars "R1" ++ ',' :: ' ' :: chars "undefined_label")) =
       .ok [SUB, 1, (u16ofInt (atoi (chars "undefined_label")) >>> 8) &&& 0xFF,
            u16ofInt (atoi (chars "undefined_label")) &&& 0xFF] ∧
     encode_line [] (chars "OUT" ++ ' ' :: chars "undefined_label") =
       .ok [OUT, 0, (u16ofInt (atoi (chars "undefined_label")) >>> 8) &&& 0xFF,
            u16ofInt (atoi (chars "undefined_label")) &&& 0xFF] ∧
     encode_line [] (chars "OUTC" ++ ' ' :: chars "undefined_label") =
       .ok [OUTC, 0, (u16ofInt (atoi (chars "undefined_label")) >>> 8) &&& 0xFF,
            u16ofInt (atoi (chars "undefined_label")) &&& 0xFF] ∧
     encode_line [] (chars "DATA" ++ ' ' :: chars "undefined_label") =
       .ok [(u16ofInt (atoi (chars "undefined_label")) >>> 8) &&& 0xFF,
            u16ofInt (atoi (chars "undefined_label")) &&& 0xFF]) :=
  operand_resolution_asymmetry [] (chars "undefined_label") (by decide) rfl
